import Mathlib

/-!
Verification of the mask-vectorization and coordinate pipeline of the
magic-copy editor (`src/components/ModelLoader.tsx`).

Numeric values computed by the JavaScript source are modelled as exact
rationals (`ℚ`); the source performs only additions, multiplications,
divisions and comparisons on values of moderate magnitude, so the rational
model decides every branch the way IEEE doubles do, and "within
floating-point tolerance" claims become exact equalities over `ℚ`.
-/

namespace MagicCopy

/-- Constant `UPLOAD_IMAGE_SIZE` from `ModelLoader.tsx` line 7. -/
def UPLOAD_IMAGE_SIZE : ℚ := 1024

/-- Upload scale, `ModelLoader.tsx` line 73:
`UPLOAD_IMAGE_SIZE / Math.max(bitmap.height, bitmap.width)`. -/
def uploadScale (w h : ℚ) : ℚ := UPLOAD_IMAGE_SIZE / max h w

/-- Preview scale, `ModelLoader.tsx` lines 90-95 (the identical computation is
inlined again at lines 208-213 inside `onMaskClick`):

`const IMAGE_SIZE = 500; const d = Math.min(w, h);`
`let scale = IMAGE_SIZE / d; if (d * scale > 1333) scale = 1333 / d;` -/
def previewScale (w h : ℚ) : ℚ :=
  let d := min w h
  let scale := (500 : ℚ) / d
  if d * scale > 1333 then 1333 / d else scale

/-- Scale from model-input space to the mask probability grid,
`ModelLoader.tsx` line 97: `onnxScale: scale / uploadScale`. -/
def onnxScale (w h : ℚ) : ℚ := previewScale w h / uploadScale w h

/-- Scale handed to the renderer, `ModelLoader.tsx` lines 202-204:
`Math.max(bitmap.height, bitmap.width) / UPLOAD_IMAGE_SIZE`. -/
def svgScale (w h : ℚ) : ℚ := max h w / UPLOAD_IMAGE_SIZE

/-- The ceiling guard of `previewScale` tests `d * scale` where `d` is the
smaller dimension, and `d * (500 / d) = 500 < 1333` whenever `d > 0`, so the
guard never fires: the scale is always `500 / min w h`. -/
theorem previewScale_eq_unclamped (w h : ℚ) (hw : 0 < w) (hh : 0 < h) :
    previewScale w h = 500 / min w h := by
  have hd : (0 : ℚ) < min w h := lt_min hw hh
  unfold previewScale
  have hmul : min w h * (500 / min w h) = 500 := by
    field_simp
  simp only [hmul]
  norm_num

/-- The denominator of `uploadScale` is positive for a positive extent. -/
theorem uploadScale_pos (w h : ℚ) (hw : 0 < w) (hh : 0 < h) :
    0 < uploadScale w h := by
  have hm : (0 : ℚ) < max h w := lt_max_iff.mpr (Or.inl hh)
  unfold uploadScale UPLOAD_IMAGE_SIZE
  positivity

/-- C1. The claim asserts that when the unclamped min-dimension scale would
push the larger dimension above 1333, the scale is recomputed so that
`max(width, height) * scale = 1333`. The code's guard at
`ModelLoader.tsx` line 93 tests `d * scale > 1333` with `d = Math.min(w, h)`,
which always equals `500`, so the recomputation is dead code: at width 10000,
height 100 the code produces scale 5, under which the larger dimension maps
to 50000, not 1333. -/
theorem previewScale_ceiling_dead_at_10000x100 :
    previewScale 10000 100 = 5 ∧
      max (10000 : ℚ) 100 * previewScale 10000 100 = 50000 ∧
      ¬ max (10000 : ℚ) 100 * previewScale 10000 100 = 1333 := by
  refine ⟨?_, ?_, ?_⟩ <;> norm_num [previewScale]

/-- C7. `onnxScale` is computed as `previewScale / uploadScale`, so mapping a
coordinate original → model-input (multiply by `uploadScale`) and then
model-input → mask-grid (multiply by `onnxScale`) equals the direct
original → mask-grid mapping (multiply by `previewScale`), exactly over `ℚ`. -/
theorem onnxScale_composes (w h x : ℚ) (hw : 0 < w) (hh : 0 < h) :
    onnxScale w h = previewScale w h / uploadScale w h ∧
      x * uploadScale w h * onnxScale w h = x * previewScale w h := by
  refine ⟨rfl, ?_⟩
  have hu : uploadScale w h ≠ 0 := (uploadScale_pos w h hw hh).ne'
  unfold onnxScale
  field_simp
  ring

/-- Witness for C7 at a concrete extent and coordinate. -/
theorem onnxScale_composes_witness :
    (0 : ℚ) < 1000 ∧ (0 : ℚ) < 800 ∧
      (onnxScale 1000 800 = previewScale 1000 800 / uploadScale 1000 800 ∧
        (7 : ℚ) * uploadScale 1000 800 * onnxScale 1000 800 =
          7 * previewScale 1000 800) :=
  ⟨by norm_num, by norm_num, onnxScale_composes 1000 800 7 (by norm_num) (by norm_num)⟩

/-- C9. The `svgScale` supplied to the renderer is the exact reciprocal of
`uploadScale`: their product is 1 for every positive extent, so a path traced
at model-mask resolution is scaled back to original-image coordinates. -/
theorem svgScale_inverts_uploadScale (w h : ℚ) (hw : 0 < w) (hh : 0 < h) :
    svgScale w h * uploadScale w h = 1 := by
  have hm : (0 : ℚ) < max h w := lt_max_iff.mpr (Or.inl hh)
  unfold svgScale uploadScale UPLOAD_IMAGE_SIZE
  field_simp

/-- Witness for C9 at a concrete extent. -/
theorem svgScale_inverts_uploadScale_witness :
    (0 : ℚ) < 1000 ∧ (0 : ℚ) < 800 ∧ svgScale 1000 800 * uploadScale 1000 800 = 1 :=
  ⟨by norm_num, by norm_num,
    svgScale_inverts_uploadScale 1000 800 (by norm_num) (by norm_num)⟩

/-- A mask tensor as the editor sees it: a dense grid of rational values with
its dimensions. The `Editor` component treats the tensors it stores
(`output`, `predMasks`) as opaque payloads; only the renderer reads
`tensor.data` and `tensor.dims`. -/
structure Grid where
  width : ℕ
  height : ℕ
  data : List ℚ
deriving DecidableEq

/-- A click point as stored in the `clicks` state, `ModelLoader.tsx` line 67. -/
structure Point where
  x : ℚ
  y : ℚ
deriving DecidableEq

/-- Editor display mode, `ModelLoader.tsx` line 68. -/
inductive Mode where
  | edit
  | preview
deriving DecidableEq

/-- A click as mapped into the model request, `ModelLoader.tsx` lines 111-117:
`{ x, y, width: null, height: null, clickType: 1 }`. -/
structure ModelClick where
  x : ℚ
  y : ℚ
  width : Option ℚ
  height : Option ℚ
  clickType : ℤ
deriving DecidableEq

/-- The `modelScale` record, `ModelLoader.tsx` lines 96-104. -/
structure ModelScale where
  onnxScale : ℚ
  maskWidth : ℚ
  maskHeight : ℚ
  scale : ℚ
  uploadScale : ℚ
  width : ℚ
  height : ℚ
deriving DecidableEq

/-- Builds the `modelScale` record of `ModelLoader.tsx` lines 88-104 from the
bitmap extent (`scale` there is `previewScale`, computed at lines 90-95). -/
def mkModelScale (w h : ℚ) : ModelScale :=
  { onnxScale := onnxScale w h
    maskWidth := w * uploadScale w h
    maskHeight := h * uploadScale w h
    scale := previewScale w h
    uploadScale := uploadScale w h
    width := w
    height := h }

/-- The argument object handed to `modelData` and posted to the sandbox,
`ModelLoader.tsx` lines 110-126 (the embedding tensor, fixed per session, is
omitted). -/
structure ModelRequest where
  clicks : List ModelClick
  modelScale : ModelScale
  last_pred_mask : Option Grid
deriving DecidableEq

/-- The per-session constants of the `Editor` component: the bitmap extent and
the caller-computed canvas scale `scaleToFit = Math.min(frame.width / w,
frame.height / h)` (`ModelLoader.tsx` lines 193-196). -/
structure Session where
  w : ℚ
  h : ℚ
  scaleToFit : ℚ

/-- The React state of the `Editor` component, `ModelLoader.tsx` lines 65-68
(`rendered` is a derived export artifact and plays no role in the claims). -/
structure EditorState where
  output : Option Grid
  predMasks : List Grid
  clicks : List Point
  mode : Mode
deriving DecidableEq

/-- Initial editor state: no output, no masks, no clicks, edit mode. -/
def initialState : EditorState :=
  { output := none, predMasks := [], clicks := [], mode := Mode.edit }

/-- The sandbox `message` listener, `ModelLoader.tsx` lines 76-79: it stores
`event.data.output` as the current output and appends `event.data.mask` to
`predMasks`, with no condition on the current click list. -/
def onMessage (s : EditorState) (out mask : Grid) : EditorState :=
  { s with output := some out, predMasks := s.predMasks ++ [mask] }

/-- The `onMaskClick` callback, `ModelLoader.tsx` lines 205-218: recomputes
the preview scale (lines 208-213, identical to lines 90-95) and appends
`{ x: x * scale / scaleToFit, y: y * scale / scaleToFit }` to `clicks`. -/
def onMaskClick (S : Session) (s : EditorState) (x y : ℚ) : EditorState :=
  let scale := previewScale S.w S.h
  { s with
    clicks := s.clicks ++ [⟨x * scale / S.scaleToFit, y * scale / S.scaleToFit⟩] }

/-- The Undo button handler, `ModelLoader.tsx` line 158:
`setClicks([...clicks.slice(0, clicks.length - 1)])`. -/
def undoClicks (s : EditorState) : EditorState :=
  { s with clicks := s.clicks.dropLast }

/-- The request built by the clicks effect, `ModelLoader.tsx` lines 110-122:
the full click list mapped to `ModelClick`s, the `modelScale` record, and
`last_pred_mask = predMasks.length > 0 ? predMasks[predMasks.length - 1] :
null`. -/
def buildRequest (S : Session) (s : EditorState) : ModelRequest :=
  { clicks := s.clicks.map fun c => ⟨c.x, c.y, none, none, 1⟩
    modelScale := mkModelScale S.w S.h
    last_pred_mask := s.predMasks.getLast? }

/-- The effect of `ModelLoader.tsx` lines 84-127, which re-runs whenever
`clicks` changes: with an empty click list it clears `output` and `predMasks`
and sends nothing (lines 105-109); otherwise it builds the request from the
full click list and the latest stored mask and posts it to the sandbox. -/
def clicksEffect (S : Session) (s : EditorState) :
    EditorState × Option ModelRequest :=
  if s.clicks = [] then
    ({ s with output := none, predMasks := [] }, none)
  else
    (s, some (buildRequest S s))

/-- External events driving the editor: a raw canvas click (client
coordinates plus the canvas bounding rect, `ModelLoader.tsx` lines 300-306),
the Undo button, a mask response message from the sandbox, and a mode switch. -/
inductive Event where
  | canvasClick (clientX clientY rectLeft rectTop : ℚ)
  | undoClick
  | message (out mask : Grid)
  | setMode (m : Mode)

/-- One step of the editor. A canvas click is ignored outside edit mode
(`ModelLoader.tsx` line 301); otherwise `onMaskClick` appends the transformed
point and the clicks effect re-runs on the grown list. The Undo button is
disabled at an empty click list (line 159); otherwise it truncates the list
and the clicks effect re-runs. A message updates `output`/`predMasks` only —
`clicks` is unchanged, so the effect does not re-run and no request is sent. -/
def step (S : Session) (s : EditorState) : Event → EditorState × Option ModelRequest
  | Event.canvasClick cx cy rl rt =>
      if s.mode = Mode.edit then
        clicksEffect S (onMaskClick S s (cx - rl) (cy - rt))
      else
        (s, none)
  | Event.undoClick =>
      if s.clicks = [] then (s, none) else clicksEffect S (undoClicks s)
  | Event.message out mask => (onMessage s out mask, none)
  | Event.setMode m => ({ s with mode := m }, none)

/-- Runs a list of events from a state, collecting the emitted model requests
in order. -/
def run (S : Session) : EditorState → List Event → EditorState × List ModelRequest
  | s, [] => (s, [])
  | s, e :: rest =>
      let p := step S s e
      let q := run S p.1 rest
      (q.1, p.2.toList ++ q.2)

/-- Modelled from the spec: the mask threshold of the Contour Extractor
(`traceOnnxMaskToSVG` lives in `src/lib/mask_utils`, which is not under
`src/`). Per spec section 4.2 the threshold is a configuration constant;
the spec leaves its value open, so it is fixed here as 0 (the logit
convention). -/
def MASK_THRESHOLD : ℚ := 0

/-- A contour: an ordered closed sequence of mask-grid lattice points. -/
def Contour : Type := List (ℕ × ℕ)

instance : DecidableEq Contour := by
  unfold Contour
  infer_instance

/-- Modelled from the spec: whether the grid cell at column `i`, row `j` is
at or above the threshold (spec section 4.2, binary segmentation of the
probability grid; out-of-range cells count as below). -/
def Grid.above (g : Grid) (i j : ℕ) : Bool :=
  decide (i < g.width) && decide (j < g.height) &&
    (match g.data.get? (j * g.width + i) with
     | some v => decide (MASK_THRESHOLD ≤ v)
     | none => false)

/-- Modelled from the spec: mask membership with signed coordinates, so that
neighbours outside the grid count as background. -/
def Grid.mask (g : Grid) (i j : ℤ) : Bool :=
  decide (0 ≤ i) && decide (0 ≤ j) && g.above i.toNat j.toNat

/-- A directed boundary edge between two lattice points of the mask grid. -/
def Edge : Type := (ℕ × ℕ) × (ℕ × ℕ)

instance : DecidableEq Edge := by
  unfold Edge
  infer_instance

/-- Modelled from the spec: the directed boundary edges contributed by the
mask cell `(i, j)` — one unit edge for each of its four sides whose
neighbouring cell is background, oriented so the mask cell lies to the left
(outer boundaries clockwise in screen coordinates with y down, hole
boundaries counter-clockwise; spec section 4.2 asks for one fixed winding
convention). -/
def cellEdges (g : Grid) (i j : ℕ) : List Edge :=
  if g.above i j then
    List.flatten
      [if g.mask (i : ℤ) ((j : ℤ) - 1) then [] else [((i, j), (i + 1, j))],
        if g.mask ((i : ℤ) + 1) (j : ℤ) then [] else [((i + 1, j), (i + 1, j + 1))],
        if g.mask (i : ℤ) ((j : ℤ) + 1) then [] else [((i + 1, j + 1), (i, j + 1))],
        if g.mask ((i : ℤ) - 1) (j : ℤ) then [] else [((i, j + 1), (i, j))]]
  else []

/-- Modelled from the spec: all directed boundary edges of the thresholded
mask, gathered in one linear pass over the grid (spec section 4.2). -/
def boundaryEdges (g : Grid) : List Edge :=
  (List.range g.height).flatMap fun j =>
    (List.range g.width).flatMap fun i => cellEdges g i j

/-- Modelled from the spec: finds an unused boundary edge starting at a given
lattice point, for the boundary walk. -/
def findEdgeFrom (v : ℕ × ℕ) : List Edge → Option Edge
  | [] => none
  | e :: es => if e.1 = v then some e else findEdgeFrom v es

/-- Modelled from the spec: follows boundary edges from `cur` until the walk
returns to `start`, consuming each edge it uses; the fuel bounds the walk by
the number of available edges. Returns the visited points and the unused
edges. -/
def walkLoop : ℕ → (ℕ × ℕ) → (ℕ × ℕ) → List Edge → List (ℕ × ℕ) × List Edge
  | 0, _, _, es => ([], es)
  | fuel + 1, start, cur, es =>
      if cur = start then ([], es)
      else
        match findEdgeFrom cur es with
        | none => ([], es)
        | some e =>
            let p := walkLoop fuel start e.2 (es.erase e)
            (e.2 :: p.1, p.2)

/-- Modelled from the spec: groups the boundary edges into closed contours,
repeatedly tracing one loop from the first unused edge (spec section 4.2,
boundary following with edges grouped into connected closed loops). -/
def traceLoops : ℕ → List Edge → List Contour
  | 0, _ => []
  | _, [] => []
  | fuel + 1, e :: es =>
      let p := walkLoop (es.length + 1) e.1 e.2 es
      (e.1 :: e.2 :: p.1) :: traceLoops fuel p.2

/-- Modelled from the spec: the Contour Extractor — binary segmentation at
`MASK_THRESHOLD`, then boundary tracing into closed contours in grid
coordinates (spec section 4.2). -/
def extractContours (g : Grid) : List Contour :=
  let es := boundaryEdges g
  traceLoops es.length es

/-- Modelled from the spec: `traceOnnxMaskToSVG`, the Mask Path Builder
entry called by the renderer at `ModelLoader.tsx` line 261; it converts the
mask grid into the vector path description, one group per extracted contour
(the SVG string serialization is presentation only). -/
def traceOnnxMaskToSVG (g : Grid) : List Contour :=
  extractContours g

/-- The renderer's selection path, `ModelLoader.tsx` lines 257-263: with no
output tensor nothing is drawn (`if (!tensor) return`), otherwise the path
traced from the mask by `traceOnnxMaskToSVG` is filled. -/
def rendererSelection (tensor : Option Grid) : Option (List Contour) :=
  match tensor with
  | none => none
  | some t => some (traceOnnxMaskToSVG t)

/-! Concrete fixtures used by counterexamples and witnesses. -/

/-- A sample session: a 1000 × 800 bitmap shown at canvas scale 1. -/
def sess : Session := ⟨1000, 800, 1⟩

/-- Sample mask payload A. -/
def gA : Grid := ⟨1, 1, [1]⟩

/-- Sample mask payload B. -/
def gB : Grid := ⟨1, 1, [2]⟩

/-- Sample mask payload C. -/
def gC : Grid := ⟨1, 1, [3]⟩

/-- Sample mask payload D. -/
def gD : Grid := ⟨1, 1, [4]⟩

/-- C2 (counterexample). Two clicks are issued, so the in-flight response to
the first request (sent with click-list length 1) is stale by the time it
arrives at click-list length 2; the listener nevertheless installs it as the
rendered output, because requests carry no tag and responses are accepted
unconditionally. -/
theorem stale_mask_accepted_cx :
    (run sess initialState
          [Event.canvasClick 10 10 0 0, Event.canvasClick 20 20 0 0,
            Event.message gA gB]).1.output = some gA ∧
      (run sess initialState
            [Event.canvasClick 10 10 0 0, Event.canvasClick 20 20 0 0,
              Event.message gA gB]).1.clicks.length = 2 ∧
      ((run sess initialState
              [Event.canvasClick 10 10 0 0, Event.canvasClick 20 20 0 0,
                Event.message gA gB]).2.map fun r => r.clicks.length) = [1, 2] := by
  refine ⟨?_, ?_, ?_⟩ <;> rfl

/-- C2 (amended). Outgoing requests carry no step tag and the message
listener performs no staleness check: every mask response is accepted into
the rendered state unconditionally, whatever the current click-list length. -/
theorem message_accepted_unconditionally (S : Session) (s : EditorState)
    (out mask : Grid) :
    (step S s (Event.message out mask)).1.output = some out ∧
      (step S s (Event.message out mask)).1.clicks = s.clicks := by
  exact ⟨rfl, rfl⟩

/-- C3 (counterexample). Clicks c1, c2 each receive their mask (gA then gC),
then Undo: the rendered output is still gC — the undone step's mask, not the
cached prior-step mask gA — and a third model request is issued by the undo,
carrying the undone step's mask gD as feedback. -/
theorem undo_keeps_undone_mask_cx :
    (run sess initialState
          [Event.canvasClick 10 10 0 0, Event.message gA gB,
            Event.canvasClick 20 20 0 0, Event.message gC gD,
            Event.undoClick]).1.output = some gC ∧
      ¬ (run sess initialState
            [Event.canvasClick 10 10 0 0, Event.message gA gB,
              Event.canvasClick 20 20 0 0, Event.message gC gD,
              Event.undoClick]).1.output = some gA ∧
      ((run sess initialState
              [Event.canvasClick 10 10 0 0, Event.message gA gB,
                Event.canvasClick 20 20 0 0, Event.message gC gD,
                Event.undoClick]).2.map fun r => r.last_pred_mask) =
        [none, some gB, some gD] := by
  refine ⟨rfl, by decide, rfl⟩

/-- C3 (amended). An undo that leaves the click list non-empty keeps the
displayed output and the mask history unchanged (still those of the undone
step) and issues a fresh model request for the shortened click list, passing
the most recently stored mask — the undone step's — as feedback; nothing is
replayed from cache. -/
theorem undo_resends_request (S : Session) (s : EditorState)
    (h1 : s.clicks ≠ []) (h2 : s.clicks.dropLast ≠ []) :
    step S s Event.undoClick =
      ({ s with clicks := s.clicks.dropLast },
        some
          { clicks := s.clicks.dropLast.map fun c => ⟨c.x, c.y, none, none, 1⟩
            modelScale := mkModelScale S.w S.h
            last_pred_mask := s.predMasks.getLast? }) := by
  simp [step, h1, clicksEffect, undoClicks, h2, buildRequest]

/-- Witness for C3's amended theorem at a concrete two-click state. -/
theorem undo_resends_request_witness :
    ((⟨some gC, [gB, gD], [⟨1, 1⟩, ⟨2, 2⟩], Mode.edit⟩ : EditorState).clicks ≠ [] ∧
        (⟨some gC, [gB, gD], [⟨1, 1⟩, ⟨2, 2⟩], Mode.edit⟩ : EditorState).clicks.dropLast ≠ []) ∧
      step sess ⟨some gC, [gB, gD], [⟨1, 1⟩, ⟨2, 2⟩], Mode.edit⟩ Event.undoClick =
        ({ (⟨some gC, [gB, gD], [⟨1, 1⟩, ⟨2, 2⟩], Mode.edit⟩ : EditorState) with
            clicks := ([⟨1, 1⟩, ⟨2, 2⟩] : List Point).dropLast },
          some
            { clicks := ([⟨1, 1⟩, ⟨2, 2⟩] : List Point).dropLast.map
                fun c => ⟨c.x, c.y, none, none, 1⟩
              modelScale := mkModelScale sess.w sess.h
              last_pred_mask := ([gB, gD] : List Grid).getLast? }) :=
  ⟨⟨by decide, by decide⟩,
    undo_resends_request sess ⟨some gC, [gB, gD], [⟨1, 1⟩, ⟨2, 2⟩], Mode.edit⟩
      (by decide) (by decide)⟩

/-- Preview-scale value for the sample 1000 × 800 extent. -/
theorem previewScale_1000_800 : previewScale 1000 800 = 5 / 8 := by
  rw [previewScale_eq_unclamped 1000 800 (by norm_num) (by norm_num), min_def]
  norm_num

/-- Upload-scale value for the sample 1000 × 800 extent. -/
theorem uploadScale_1000_800 : uploadScale 1000 800 = 128 / 125 := by
  unfold uploadScale UPLOAD_IMAGE_SIZE
  rw [max_def]
  norm_num

/-- C4 (counterexample). On a 1000 × 800 bitmap at canvas scale 1, a click
at canvas point (100, 100) is appended as (62.5, 62.5): the handler
multiplies by the preview scale 500/800 = 5/8, not by the upload scale
1024/1000, under which the claim would require 102.4. -/
theorem addClick_uses_preview_scale_cx :
    (run sess initialState [Event.canvasClick 100 100 0 0]).1.clicks =
        [⟨125 / 2, 125 / 2⟩] ∧
      ¬ (100 : ℚ) / sess.scaleToFit * uploadScale sess.w sess.h = 125 / 2 := by
  constructor
  · simp only [run, step, initialState, sess, clicksEffect, onMaskClick, buildRequest]
    norm_num [previewScale_1000_800]
  · show ¬ (100 : ℚ) / sess.scaleToFit * uploadScale sess.w sess.h = 125 / 2
    simp only [sess]
    norm_num [uploadScale_1000_800]

/-- C4 (amended). In edit mode, a canvas click at client point (cx, cy) over
a canvas rect at (rl, rt) appends the point scaled by the preview scale
(500/min(w, h), the ceiling guard being dead) and divided by the canvas
scale — not the upload scale — and triggers a model request carrying the
full transformed click list plus the most recently stored mask (null if the
history is empty). -/
theorem addClick_appends_and_requests (S : Session) (s : EditorState)
    (cx cy rl rt : ℚ) (h : s.mode = Mode.edit) :
    (step S s (Event.canvasClick cx cy rl rt)).1 =
        { s with
            clicks := s.clicks ++
              [(⟨(cx - rl) * previewScale S.w S.h / S.scaleToFit,
                  (cy - rt) * previewScale S.w S.h / S.scaleToFit⟩ : Point)] } ∧
      (step S s (Event.canvasClick cx cy rl rt)).2 =
        some
          { clicks :=
              (s.clicks ++
                  [(⟨(cx - rl) * previewScale S.w S.h / S.scaleToFit,
                      (cy - rt) * previewScale S.w S.h / S.scaleToFit⟩ : Point)]).map
                fun c => ⟨c.x, c.y, none, none, 1⟩
            modelScale := mkModelScale S.w S.h
            last_pred_mask := s.predMasks.getLast? } := by
  constructor <;> simp [step, h, onMaskClick, clicksEffect, buildRequest]

/-- Witness for C4's amended theorem at a concrete click. -/
theorem addClick_appends_and_requests_witness :
    initialState.mode = Mode.edit ∧
      ((step sess initialState (Event.canvasClick 100 100 0 0)).1 =
          { initialState with
              clicks := initialState.clicks ++
                [(⟨(100 - 0) * previewScale sess.w sess.h / sess.scaleToFit,
                    (100 - 0) * previewScale sess.w sess.h / sess.scaleToFit⟩ : Point)] } ∧
        (step sess initialState (Event.canvasClick 100 100 0 0)).2 =
          some
            { clicks :=
                (initialState.clicks ++
                    [(⟨(100 - 0) * previewScale sess.w sess.h / sess.scaleToFit,
                        (100 - 0) * previewScale sess.w sess.h / sess.scaleToFit⟩ : Point)]).map
                  fun c => ⟨c.x, c.y, none, none, 1⟩
              modelScale := mkModelScale sess.w sess.h
              last_pred_mask := initialState.predMasks.getLast? }) :=
  ⟨rfl, addClick_appends_and_requests sess initialState 100 100 0 0 rfl⟩

/-- C5. When an undo empties the click list (the Undo button is enabled only
on a non-empty list), the clicks effect clears the stored output and the
mask history, no request is sent, and the renderer — given no tensor —
draws no selection path. -/
theorem undo_to_empty_clears (S : Session) (s : EditorState)
    (h1 : s.clicks ≠ []) (h2 : s.clicks.dropLast = []) :
    (step S s Event.undoClick).1.clicks = [] ∧
      (step S s Event.undoClick).1.output = none ∧
      (step S s Event.undoClick).1.predMasks = [] ∧
      rendererSelection (step S s Event.undoClick).1.output = none ∧
      (step S s Event.undoClick).2 = none := by
  refine ⟨?_, ?_, ?_, ?_, ?_⟩ <;>
    simp [step, h1, clicksEffect, undoClicks, h2, rendererSelection]

/-- Witness for C5 at a concrete one-click state holding a mask. -/
theorem undo_to_empty_clears_witness :
    ((⟨some gA, [gA], [⟨1, 2⟩], Mode.edit⟩ : EditorState).clicks ≠ [] ∧
        (⟨some gA, [gA], [⟨1, 2⟩], Mode.edit⟩ : EditorState).clicks.dropLast = []) ∧
      ((step sess ⟨some gA, [gA], [⟨1, 2⟩], Mode.edit⟩ Event.undoClick).1.clicks = [] ∧
        (step sess ⟨some gA, [gA], [⟨1, 2⟩], Mode.edit⟩ Event.undoClick).1.output = none ∧
        (step sess ⟨some gA, [gA], [⟨1, 2⟩], Mode.edit⟩ Event.undoClick).1.predMasks = [] ∧
        rendererSelection
            (step sess ⟨some gA, [gA], [⟨1, 2⟩], Mode.edit⟩ Event.undoClick).1.output =
          none ∧
        (step sess ⟨some gA, [gA], [⟨1, 2⟩], Mode.edit⟩ Event.undoClick).2 = none) :=
  ⟨⟨by decide, by decide⟩,
    undo_to_empty_clears sess ⟨some gA, [gA], [⟨1, 2⟩], Mode.edit⟩ (by decide) (by decide)⟩

/-- C6 (counterexample). After click c1 receives mask gB, undoing to an empty
list clears the mask history, so the next click's request passes null as
previous-mask feedback even though mask gB had been received: the feedback is
the last mask of the retained history, not of all masks ever received. -/
theorem feedback_null_after_clear_cx :
    ((run sess initialState
            [Event.canvasClick 10 10 0 0, Event.message gA gB,
              Event.undoClick, Event.canvasClick 20 20 0 0]).2.map
          fun r => r.last_pred_mask) = [none, none] ∧
      (run sess initialState
            [Event.canvasClick 10 10 0 0, Event.message gA gB,
              Event.undoClick, Event.canvasClick 20 20 0 0]).1.predMasks = [] := by
  exact ⟨rfl, rfl⟩

/-- C6 (amended). Every received mask is appended to the mask history, and
every request the editor emits passes the last mask of the current history
as previous-mask feedback (null when the history is empty — the history is
cleared whenever the click list empties); masks are never merged. -/
theorem mask_feedback_append_and_latest (S : Session) (s : EditorState) :
    (∀ out mask, (step S s (Event.message out mask)).1.predMasks =
        s.predMasks ++ [mask]) ∧
      ∀ e r, (step S s e).2 = some r → r.last_pred_mask = s.predMasks.getLast? := by
  refine ⟨fun out mask => rfl, fun e r h => ?_⟩
  cases e with
  | canvasClick cx cy rl rt =>
      by_cases hm : s.mode = Mode.edit
      · have hne : (onMaskClick S s (cx - rl) (cy - rt)).clicks ≠ [] := by
          simp [onMaskClick]
        simp [step, hm, clicksEffect, hne] at h
        rw [← h]
        simp [buildRequest, onMaskClick]
      · simp [step, hm] at h
  | undoClick =>
      by_cases hc : s.clicks = []
      · simp [step, hc] at h
      · by_cases hd : (undoClicks s).clicks = []
        · simp [step, hc, clicksEffect, hd] at h
        · simp [step, hc, clicksEffect, hd] at h
          rw [← h]
          simp [buildRequest, undoClicks]
  | message out mask => simp [step, onMessage] at h
  | setMode m => simp [step] at h

/-- Witness for C6's amended theorem: a click from a one-mask history emits a
request whose feedback is that latest mask. -/
theorem mask_feedback_append_and_latest_witness :
    (step sess ⟨some gA, [gB], [⟨1, 1⟩], Mode.edit⟩ (Event.canvasClick 8 8 0 0)).2 =
        some (buildRequest sess
          (onMaskClick sess ⟨some gA, [gB], [⟨1, 1⟩], Mode.edit⟩ (8 - 0) (8 - 0))) ∧
      (buildRequest sess
            (onMaskClick sess ⟨some gA, [gB], [⟨1, 1⟩], Mode.edit⟩
              (8 - 0) (8 - 0))).last_pred_mask =
        (⟨some gA, [gB], [⟨1, 1⟩], Mode.edit⟩ : EditorState).predMasks.getLast? :=
  ⟨rfl,
    (mask_feedback_append_and_latest sess ⟨some gA, [gB], [⟨1, 1⟩], Mode.edit⟩).2
      (Event.canvasClick 8 8 0 0) _ rfl⟩

/-- C8. A probability grid with every value below the threshold yields an
empty contour set from the extractor, and the renderer's path for it is
empty: nothing is rendered, and no error arises. -/
theorem emptyGrid_no_contours (g : Grid)
    (h : ∀ v ∈ g.data, v < MASK_THRESHOLD) :
    extractContours g = [] ∧ traceOnnxMaskToSVG g = [] ∧
      rendererSelection (some g) = some [] := by
  have habove : ∀ i j, g.above i j = false := by
    intro i j
    unfold Grid.above
    cases hget : g.data.get? (j * g.width + i) with
    | none => simp
    | some v =>
        have hv : v ∈ g.data := List.get?_mem hget
        have hlt : ¬ MASK_THRESHOLD ≤ v := not_le.mpr (h v hv)
        simp [hlt]
  have hcell : ∀ i j, cellEdges g i j = [] := by
    intro i j
    simp [cellEdges, habove]
  have hedges : boundaryEdges g = [] := by
    simp [boundaryEdges, hcell]
  have hextract : extractContours g = [] := by
    simp [extractContours, hedges, traceLoops]
  exact ⟨hextract, hextract, by simp [rendererSelection, traceOnnxMaskToSVG, hextract]⟩

/-- Witness for C8 on a concrete 2 × 2 all-negative grid. -/
theorem emptyGrid_no_contours_witness :
    (∀ v ∈ (⟨2, 2, [-1, -1, -1, -1]⟩ : Grid).data, v < MASK_THRESHOLD) ∧
      (extractContours ⟨2, 2, [-1, -1, -1, -1]⟩ = [] ∧
        traceOnnxMaskToSVG ⟨2, 2, [-1, -1, -1, -1]⟩ = [] ∧
        rendererSelection (some ⟨2, 2, [-1, -1, -1, -1]⟩) = some []) :=
  ⟨by decide, emptyGrid_no_contours ⟨2, 2, [-1, -1, -1, -1]⟩ (by decide)⟩

/-- C10. A canvas click received while the editor is in preview mode is a
no-op: `onMaskClick` is not invoked, the state (click list, mask history,
output) is unchanged, and no model request is sent. -/
theorem preview_click_noop (S : Session) (s : EditorState)
    (cx cy rl rt : ℚ) (h : s.mode = Mode.preview) :
    step S s (Event.canvasClick cx cy rl rt) = (s, none) := by
  simp [step, h]

/-- Witness for C10 at a concrete preview-mode state. -/
theorem preview_click_noop_witness :
    (⟨none, [], [], Mode.preview⟩ : EditorState).mode = Mode.preview ∧
      step sess ⟨none, [], [], Mode.preview⟩ (Event.canvasClick 5 5 0 0) =
        (⟨none, [], [], Mode.preview⟩, none) :=
  ⟨rfl, preview_click_noop sess ⟨none, [], [], Mode.preview⟩ 5 5 0 0 rfl⟩

end MagicCopy
